import Mathlib

/-!
Verification development for the FreeTodo real-time streaming speech
transcription engine (`lifetrace/routers/voice_stream_whisper.py` and
`lifetrace/routers/voice_stream_whisperlivekit_native.py`).

The Python code is shallowly embedded: times, durations and normalized
audio samples (Python floats) become rationals, PCM byte buffers become
`List Nat` (one entry per byte, little-endian Int16 pairs), the
`collections.deque(maxlen=...)` buffers become lists bounded by an
explicit eviction function, and the external Faster-Whisper engine call
(together with its `asyncio.wait_for` timeout and exception handling,
whose failure modes all reduce to a falsy result in the callers) becomes
an `Option (List SegmentOut)` oracle argument.  Wall-clock reads
(`time.time()`) become explicit rational arguments.
-/

namespace FreeTodo

/-- Python `int(q)` for the nonnegative rationals that appear in the code
(truncation toward zero). -/
def pyInt (q : ℚ) : ℤ :=
  if 0 ≤ q then q.floor else -((-q).floor)

/-- Characters treated as whitespace by Python's `str.strip()`. -/
def pyIsSpace (c : Char) : Bool :=
  c = (' ') || c = ('\t') || c = ('\n') || c = ('\r') || c = (Char.ofNat 11) || c = (Char.ofNat 12)

/-- Python `str.strip()`: drop leading and trailing whitespace. -/
def pyStrip (s : String) : String :=
  String.mk (((s.toList.dropWhile pyIsSpace).reverse.dropWhile pyIsSpace).reverse)

/-- Decode one little-endian Int16 sample from two bytes, as
`np.frombuffer(..., dtype=np.int16)` does. -/
def decodeInt16 (lo hi : ℕ) : ℤ :=
  let v : ℤ := (lo : ℤ) + 256 * (hi : ℤ)
  if v < 32768 then v else v - 65536

/-- Decode a byte list into Int16 samples, pairwise little-endian.
A trailing odd byte decodes to nothing (the Python code always truncates
to an even byte count before calling `np.frombuffer`). -/
def bytesToSamples : List ℕ → List ℤ
  | lo :: hi :: rest => decodeInt16 lo hi :: bytesToSamples rest
  | _ => []

/-- Normalization of an Int16 sample to a float in [-1, 1]:
`audio_int16.astype(np.float32) / 32768.0`. -/
def sampleToFloat (v : ℤ) : ℚ :=
  (v : ℚ) / 32768

/-- Mean of squares of a float list: `np.mean(audio_float**2)`.
On the empty list this is 0 (the code never takes the mean of an empty
array on the paths modelled here). -/
def meanSquare (xs : List ℚ) : ℚ :=
  (xs.map (fun x => x ^ 2)).sum / (xs.length : ℚ)

/-- Peak absolute amplitude: `np.max(np.abs(audio_float32))`, 0 on empty. -/
def maxAbs (xs : List ℚ) : ℚ :=
  xs.foldr (fun x m => max |x| m) 0

/-- Rational `np.sign`. -/
def signQ (x : ℚ) : ℚ :=
  if x < 0 then -1 else if x = 0 then 0 else 1

/-- Count of adjacent positions where the sign changes:
`np.sum(np.diff(np.sign(xs)) != 0)`. -/
def countSignChanges : List ℚ → ℕ
  | x :: y :: rest => (if signQ x ≠ signQ y then 1 else 0) + countSignChanges (y :: rest)
  | _ => 0

/-- Zero-crossing-rate numerator divided by length; 0 on empty (the code
guards `if len(audio_float32) > 0 else 0`). -/
def zcrOf (xs : List ℚ) : ℚ :=
  if xs.length = 0 then 0 else (countSignChanges xs : ℚ) / (xs.length : ℚ)

/-- Appending to a `collections.deque` with `maxlen`: elements are pushed
one by one and the oldest are evicted, so the result is the last `maxlen`
elements of `buf ++ data`. -/
def dequeExtend {α : Type} (maxlen : ℕ) (buf data : List α) : List α :=
  let l := buf ++ data
  l.drop (l.length - maxlen)

/-- Python slice `xs[-k:]`: the last `k` elements for `k > 0`, but the whole
list when `k = 0` (since `xs[-0:] = xs[0:]`). -/
def pyLastSlice {α : Type} (xs : List α) (k : ℕ) : List α :=
  if k = 0 then xs else xs.drop (xs.length - k)

/-- Fallback traditional-to-simplified character table from
`voice_stream_whisper.convert_traditional_to_simplified` (the path taken
when the optional `opencc` dependency is absent). -/
def t2sTable : List (Char × Char) :=
  [('學', '学'), ('會', '会'), ('從', '从'), ('感', '感'), ('全', '全'), ('在', '在'),
   ('心', '心'), ('頭', '头'), ('的', '的'), ('悲', '悲'), ('鳴', '鸣'), ('人', '人'),
   ('需', '需'), ('要', '要'), ('愛', '爱'), ('和', '和'), ('關', '关'), ('結', '结'),
   ('果', '果'), ('城', '城'), ('市', '市'), ('哪', '哪'), ('有', '有'), ('阻', '阻'),
   ('礙', '碍'), ('圍', '围'), ('都', '都'), ('看', '看'), ('自', '自'), ('己', '己'),
   ('想', '想'), ('像', '像'), ('走', '走'), ('過', '过'), ('當', '当'), ('你', '你'),
   ('做', '做'), ('了', '了'), ('些', '些'), ('什', '什'), ('麼', '么'), ('事', '事'),
   ('情', '情'), ('也', '也'), ('許', '许'), ('是', '是'), ('傷', '伤'), ('給', '给'),
   ('我', '我'), ('一', '一'), ('個', '个'), ('失', '失'), ('誤', '误'), ('真', '真'),
   ('實', '实'), ('口', '口'), ('徑', '径'), ('花', '花'), ('點', '点'), ('時', '时'),
   ('間', '间'), ('那', '那'), ('不', '不'), ('意', '意'), ('原', '原'), ('曲', '曲'),
   ('而', '而'), ('能', '能'), ('重', '重'), ('唱', '唱'), ('們', '们'), ('終', '终'),
   ('究', '究'), ('回', '回'), ('去', '去'), ('別', '别'), ('再', '再'), ('憶', '忆'),
   ('年', '年')]

/-- Per-character lookup in the fallback table, identity elsewhere. -/
def t2sChar (c : Char) : Char :=
  ((t2sTable.find? (fun p => p.1 == c)).map Prod.snd).getD c

/-- The whisper router's `convert_traditional_to_simplified`, modelled on
its ImportError fallback path: characters are mapped independently. -/
def convert_traditional_to_simplified (s : String) : String :=
  String.mk (s.toList.map t2sChar)

/-- VAD transition events returned by `EventDrivenVAD.detect`. -/
inductive VadEvent where
  | voiceStarted
  | voiceEnded
deriving DecidableEq

/-- State and configuration of `EventDrivenVAD` (the source class keeps
both in instance attributes).  `sample_rate` is the hardcoded 16000 of
the class, independent of the processor's own rate. -/
structure EventDrivenVAD where
  threshold : ℚ
  min_silence_duration : ℚ
  voice_started : Bool
  silence_duration : ℚ
  sample_rate : ℕ
deriving DecidableEq

/-- Constructor `EventDrivenVAD.__init__`. -/
def EventDrivenVAD.init (threshold min_silence_duration : ℚ) : EventDrivenVAD :=
  { threshold := threshold, min_silence_duration := min_silence_duration,
    voice_started := false, silence_duration := 0, sample_rate := 16000 }

/-- Method `EventDrivenVAD._detect_voice`.  The source compares
`rms > threshold`; both sides are nonnegative for the configured
(positive) thresholds, so this is compared as
`mean-square > threshold^2`, avoiding square roots. -/
def EventDrivenVAD.detect_voice (v : EventDrivenVAD) (pcm_data : List ℕ) : Bool :=
  if pcm_data.length < 2 then false
  else decide (v.threshold ^ 2 < meanSquare ((bytesToSamples pcm_data).map sampleToFloat))

/-- Method `EventDrivenVAD.detect`: the voice start/end state machine. -/
def EventDrivenVAD.detect (v : EventDrivenVAD) (pcm_data : List ℕ) :
    EventDrivenVAD × Option VadEvent :=
  let has_voice := v.detect_voice pcm_data
  let samples := pcm_data.length / 2
  let silence_duration : ℚ := (samples : ℚ) / (v.sample_rate : ℚ)
  if has_voice then
    if !v.voice_started then
      ({ v with voice_started := true, silence_duration := 0 }, some VadEvent.voiceStarted)
    else
      ({ v with silence_duration := 0 }, none)
  else if v.voice_started then
    let s' := v.silence_duration + silence_duration
    if v.min_silence_duration ≤ s' then
      ({ v with voice_started := false, silence_duration := 0 }, some VadEvent.voiceEnded)
    else
      ({ v with silence_duration := s' }, none)
  else
    (v, none)

/-- Method `EventDrivenVAD.has_silence`. -/
def EventDrivenVAD.has_silence (v : EventDrivenVAD) : Bool :=
  decide (v.min_silence_duration ≤ v.silence_duration)

/-- Module constant `MIN_TEXT_LENGTH_FOR_COMMIT` of the whisper router. -/
def MIN_TEXT_LENGTH_FOR_COMMIT : ℕ := 2

/-- Module constant `MIN_AUDIO_DURATION_FOR_SHORT_SENTENCE` (seconds). -/
def MIN_AUDIO_DURATION_FOR_SHORT_SENTENCE : ℚ := 1

/-- Configuration of the whisper router's `StreamingPolicy`. -/
structure StreamingPolicy where
  min_chunk_duration : ℚ
  max_chunk_duration : ℚ
  silence_threshold : ℚ
deriving DecidableEq

/-- Method `StreamingPolicy.should_commit` of the whisper router:
returns `(should_commit, is_final)`. -/
def StreamingPolicy.should_commit (p : StreamingPolicy) (audio_duration : ℚ)
    (has_silence : Bool) (text_length : ℕ) : Bool × Bool :=
  if has_silence ∧ MIN_TEXT_LENGTH_FOR_COMMIT ≤ text_length then (true, true)
  else if audio_duration < MIN_AUDIO_DURATION_FOR_SHORT_SENTENCE ∧
      MIN_TEXT_LENGTH_FOR_COMMIT ≤ text_length ∧ has_silence then (true, true)
  else if p.min_chunk_duration ≤ audio_duration ∧
      MIN_TEXT_LENGTH_FOR_COMMIT ≤ text_length then (true, false)
  else (false, false)

/-- Configuration of the native router's `StreamingPolicy` (the class of
the same name in `voice_stream_whisperlivekit_native.py`). -/
structure NativeStreamingPolicy where
  min_chunk_duration : ℚ
  max_chunk_duration : ℚ
  silence_threshold : ℚ
deriving DecidableEq

/-- Method `StreamingPolicy.should_commit` of the native router. -/
def NativeStreamingPolicy.should_commit (p : NativeStreamingPolicy) (audio_duration : ℚ)
    (has_silence : Bool) (text_length : ℕ) (is_voice_ended : Bool) : Bool × Bool :=
  if is_voice_ended ∧ 1 ≤ text_length then (true, true)
  else if has_silence ∧ 1 ≤ text_length ∧ p.min_chunk_duration ≤ audio_duration then (true, true)
  else if audio_duration < 1 ∧ 1 ≤ text_length ∧ has_silence then (true, true)
  else if p.min_chunk_duration ≤ audio_duration ∧ 1 ≤ text_length then
    (if p.max_chunk_duration ≤ audio_duration then (true, true) else (true, false))
  else (false, false)

/-- One segment as returned by the external Faster-Whisper engine
(`segment.text`, `segment.start`, `segment.end`). -/
structure SegmentOut where
  text : String
  segStart : ℚ
  segEnd : ℚ
deriving DecidableEq

/-- Dictionary returned by `PCMAudioProcessor._transcribe`:
`{"text": ..., "isFinal": ..., "segments": ...}`. -/
structure TransResult where
  text : String
  isFinal : Bool
  segments : List (ℚ × ℚ)
deriving DecidableEq

/-- Result dictionary returned by `PCMAudioProcessor.try_process` and
`PCMAudioProcessor.flush` and emitted to the client as a JSON frame. -/
structure EmitResult where
  text : String
  isFinal : Bool
  startTime : ℚ
  endTime : ℚ
  segments : List (ℚ × ℚ)
deriving DecidableEq

/-- Module constant `VAD_THRESHOLD_EPSILON`. -/
def VAD_THRESHOLD_EPSILON : ℚ := 1 / 10000

/-- Module constant `VAD_THRESHOLD_LOW`. -/
def VAD_THRESHOLD_LOW : ℚ := 1 / 100

/-- Module constant `VAD_THRESHOLD_MEDIUM`. -/
def VAD_THRESHOLD_MEDIUM : ℚ := 1 / 20

/-- Method `PCMAudioProcessor._convert_pcm_to_numpy`: Int16 decode,
normalization, and the three-feature silence gate.  The
`np.isfinite` validation is omitted: rationals obtained from Int16
samples are always finite.  Returns `none` where the source returns
`None` (short input, or detected silence). -/
def convertPcmToNumpy (pcm_data : List ℕ) : Option (List ℚ) :=
  if pcm_data.length < 2 then none
  else
    let pcm_bytes := if pcm_data.length % 2 ≠ 0 then pcm_data.dropLast else pcm_data
    let audio_int16 := bytesToSamples pcm_bytes
    if audio_int16.length = 0 then none
    else
      let audio_float32 := audio_int16.map sampleToFloat
      let energy := meanSquare audio_float32
      let peak := maxAbs audio_float32
      let zcr := zcrOf audio_float32
      let is_silence := decide (energy < VAD_THRESHOLD_EPSILON) &&
        decide (peak < VAD_THRESHOLD_LOW) && decide (zcr < VAD_THRESHOLD_MEDIUM)
      if is_silence then none else some audio_float32

/-- Pure part of `PCMAudioProcessor._transcribe` downstream of the engine
call: the is-final heuristic, per-segment stripping and joining, and the
traditional-to-simplified conversion.  The engine call itself (and its
exception handling, which yields a falsy value) is the caller's oracle. -/
def whisperTranscribeSegments (segments_list : List SegmentOut) (voice_ended : Bool)
    (audio_duration : ℚ) : Option TransResult :=
  let is_final := decide (1 < segments_list.length) || voice_ended ||
    decide ((1 : ℚ) ≤ audio_duration)
  let kept := segments_list.filter (fun g => !(pyStrip g.text == ""))
  let texts := kept.map (fun g => pyStrip g.text)
  let segment_times := kept.map (fun g => (g.segStart, g.segEnd))
  let result := String.intercalate (" ") texts
  if result = ("") then none
  else
    some { text := convert_traditional_to_simplified result, isFinal := is_final,
           segments := segment_times }

/-- State of `PCMAudioProcessor` (configuration attributes included, as
in the source class).  `pcm_buffer` is the byte deque;
`pcm_buffer_maxlen` its `maxlen` in bytes. -/
structure PCMAudioProcessor where
  sample_rate : ℕ
  chunk_duration : ℚ
  overlap : ℚ
  min_samples : ℕ
  pcm_buffer_maxlen : ℕ
  pcm_buffer : List ℕ
  vad : EventDrivenVAD
  streaming_policy : StreamingPolicy
  is_processing : Bool
  last_process_time : ℚ
  voice_activity_detected : Bool
  voice_ended_detected : Bool
  total_processed_samples : ℤ
deriving DecidableEq

/-- Constructor `PCMAudioProcessor.__init__` (`now` models the
`time.time()` read for `last_process_time`). -/
def PCMAudioProcessor.init (sample_rate : ℕ) (chunk_duration overlap : ℚ)
    (min_samples : ℕ) (now : ℚ) : PCMAudioProcessor :=
  { sample_rate := sample_rate, chunk_duration := chunk_duration, overlap := overlap,
    min_samples := min_samples,
    pcm_buffer_maxlen := ((pyInt ((sample_rate : ℚ) * 10)).toNat) * 2,
    pcm_buffer := [],
    vad := EventDrivenVAD.init (1 / 100) (1 / 2),
    streaming_policy := { min_chunk_duration := 3 / 10, max_chunk_duration := 2,
                          silence_threshold := 1 / 2 },
    is_processing := false, last_process_time := now,
    voice_activity_detected := false, voice_ended_detected := false,
    total_processed_samples := 0 }

/-- Method `PCMAudioProcessor.add_pcm_data`: append bytes to the bounded
deque and run the event-driven VAD, latching its events into the two
pending-event flags. -/
def PCMAudioProcessor.add_pcm_data (s : PCMAudioProcessor) (data : List ℕ) :
    PCMAudioProcessor :=
  let buf' := dequeExtend s.pcm_buffer_maxlen s.pcm_buffer data
  let d := s.vad.detect data
  { s with
    pcm_buffer := buf',
    vad := d.1,
    voice_activity_detected :=
      if d.2 = some VadEvent.voiceStarted then true else s.voice_activity_detected,
    voice_ended_detected :=
      if d.2 = some VadEvent.voiceEnded then true else s.voice_ended_detected }

/-- Method `PCMAudioProcessor.try_process`.  `now` is the `time.time()`
read at entry; `engine` is the outcome of the bounded external
transcription call (`none` covers the `asyncio.wait_for` timeout and an
engine exception, both of which leave `result_dict` falsy).  Returns the
updated state and the result dictionary, if any. -/
def PCMAudioProcessor.try_process (s : PCMAudioProcessor) (now : ℚ)
    (engine : Option (List SegmentOut)) : PCMAudioProcessor × Option EmitResult :=
  let current_samples := s.pcm_buffer.length / 2
  let time_since_last := now - s.last_process_time
  let max_buffer_samples := (pyInt ((s.sample_rate : ℚ) * 3)).toNat
  let buffer_overflow := decide (max_buffer_samples < current_samples)
  let voice_ended := s.voice_ended_detected ||
    (s.vad.has_silence && decide (s.min_samples ≤ current_samples))
  let voice_started := s.voice_activity_detected
  let has_enough_data := decide (s.min_samples ≤ current_samples)
  let event_triggered := voice_ended ||
    (voice_started && decide (s.chunk_duration ≤ time_since_last))
  let time_triggered := decide (s.chunk_duration ≤ time_since_last)
  let should_process := has_enough_data && (event_triggered || time_triggered || buffer_overflow)
  if !should_process then (s, none)
  else
    let s1 := { s with voice_activity_detected := false, voice_ended_detected := false }
    if s1.is_processing && !buffer_overflow &&
        !(decide (s.chunk_duration * 2 < time_since_last)) then
      (s1, none)
    else
      let s1 := { s1 with is_processing := true }
      let target_samples := (pyInt ((s1.sample_rate : ℚ) * s1.chunk_duration)).toNat
      let current_buffer_samples := s1.pcm_buffer.length / 2
      if current_buffer_samples < s1.min_samples then
        ({ s1 with is_processing := false }, none)
      else
        let process_samples := min target_samples current_buffer_samples
        let process_bytes := process_samples * 2
        let pcm_bytes := s1.pcm_buffer.take process_bytes
        let pcm_bytes := if pcm_bytes.length % 2 ≠ 0 then pcm_bytes.dropLast else pcm_bytes
        let process_samples : ℕ := pcm_bytes.length / 2
        match convertPcmToNumpy pcm_bytes with
        | none => ({ s1 with is_processing := false }, none)
        | some audio_array =>
          if audio_array.length = 0 then ({ s1 with is_processing := false }, none)
          else
            let audio_duration := (audio_array.length : ℚ) / (s1.sample_rate : ℚ)
            let result_dict :=
              engine.bind (fun segs => whisperTranscribeSegments segs voice_ended audio_duration)
            let overlap_samples := (pyInt ((s1.sample_rate : ℚ) * s1.overlap)).toNat
            let new_samples : ℤ := (process_samples : ℤ) - (overlap_samples : ℤ)
            let relative_start_time := (s1.total_processed_samples : ℚ) / (s1.sample_rate : ℚ)
            let relative_end_time :=
              ((s1.total_processed_samples : ℚ) + (process_samples : ℚ)) / (s1.sample_rate : ℚ)
            let s2 := { s1 with total_processed_samples := s1.total_processed_samples + new_samples }
            let has_silence := s2.vad.has_silence || voice_ended
            let text_length := (result_dict.map (fun rd => rd.text.length)).getD 0
            let commit := s2.streaming_policy.should_commit audio_duration has_silence text_length
            let commit := if voice_ended then (true, true) else commit
            let remove_samples := (max 0 ((process_samples : ℤ) - (overlap_samples : ℤ))).toNat
            let remove_bytes := remove_samples * 2
            let s3 := { s2 with
                        pcm_buffer := s2.pcm_buffer.drop remove_bytes,
                        last_process_time := now,
                        is_processing := false }
            match result_dict with
            | some rd =>
              let final_is_final := if commit.1 then commit.2 else rd.isFinal
              let final_start_time := max 0 relative_start_time
              let final_end_time := max final_start_time relative_end_time
              (s3, some { text := rd.text,
                          isFinal := final_is_final,
                          startTime := final_start_time,
                          endTime := final_end_time,
                          segments := rd.segments })
            | none => (s3, none)

/-- Method `PCMAudioProcessor.flush`: force-process all residual buffered
bytes (the buffer itself is never cleared by this method in the source). -/
def PCMAudioProcessor.flush (s : PCMAudioProcessor) (engine : Option (List SegmentOut)) :
    PCMAudioProcessor × Option EmitResult :=
  if 0 < s.pcm_buffer.length then
    let current_samples := s.pcm_buffer.length / 2
    match convertPcmToNumpy s.pcm_buffer with
    | some audio_array =>
      if 0 < audio_array.length then
        let result_dict := engine.bind (fun segs =>
          whisperTranscribeSegments segs true ((audio_array.length : ℚ) / (s.sample_rate : ℚ)))
        match result_dict with
        | some rd =>
          if rd.text = ("") then (s, none)
          else
            let relative_start_time := (s.total_processed_samples : ℚ) / (s.sample_rate : ℚ)
            let relative_end_time :=
              ((s.total_processed_samples : ℚ) + (current_samples : ℚ)) / (s.sample_rate : ℚ)
            let s' := { s with total_processed_samples :=
                          s.total_processed_samples + (current_samples : ℤ) }
            let final_start_time := max 0 relative_start_time
            let final_end_time := max final_start_time relative_end_time
            (s', some { text := rd.text, isFinal := true, startTime := final_start_time,
                        endTime := final_end_time, segments := [] })
        | none => (s, none)
      else (s, none)
    | none => (s, none)
  else (s, none)

/-- One session-level operation of the whisper WebSocket handler loop:
a binary frame appended to the buffer, a `try_process` attempt (with its
wall-clock read and engine oracle), or the EOS flush. -/
inductive SessionOp where
  | addData (data : List ℕ)
  | tryProc (now : ℚ) (engine : Option (List SegmentOut))
  | flushOp (engine : Option (List SegmentOut))

/-- Execute one session operation. -/
def stepOp (s : PCMAudioProcessor) : SessionOp → PCMAudioProcessor × Option EmitResult
  | SessionOp.addData d => (s.add_pcm_data d, none)
  | SessionOp.tryProc now engine => s.try_process now engine
  | SessionOp.flushOp engine => s.flush engine

/-- Execute a list of session operations, collecting every result emitted
to the client in order. -/
def runOps : PCMAudioProcessor → List SessionOp → PCMAudioProcessor × List EmitResult
  | s, [] => (s, [])
  | s, op :: rest =>
    let r := stepOp s op
    let rr := runOps r.1 rest
    (rr.1, r.2.toList ++ rr.2)

/-- Inner loop of the native router's repeated-character check
(`voice_stream_whisperlivekit_native.WhisperLiveKitNativeProcessor._transcribe`):
`repeat_count` counts the current run of adjacent equal characters,
`max_repeat` the best seen so far. -/
def nativeMaxRepeatAux : List Char → Char → ℕ → ℕ → ℕ
  | [], _, _, max_repeat => max_repeat
  | c :: rest, prev, repeat_count, max_repeat =>
    if c = prev then
      nativeMaxRepeatAux rest c (repeat_count + 1) (max max_repeat (repeat_count + 1))
    else
      nativeMaxRepeatAux rest c 0 max_repeat

/-- The native router's `max_repeat` value for a character list. -/
def nativeMaxRepeat : List Char → ℕ
  | [] => 0
  | c :: rest => nativeMaxRepeatAux rest c 0 0

/-- Dictionary returned by the native `_transcribe`:
`{'text': ..., 'isFinal': ...}`. -/
structure NativeTransResult where
  text : String
  isFinal : Bool
deriving DecidableEq

/-- Pure part of `WhisperLiveKitNativeProcessor._transcribe` downstream
of the engine call: segment joining, the repeated-character garbage
filter, and the commit decision with its forced-partial fallback.  The
native `convert_traditional_to_simplified` is the identity on its
ImportError fallback path and is modelled as such.  `audio_len` is the
length of the (context-inflated) array passed to the engine;
`has_silence` is the value of `self.vad.has_silence()`. -/
def nativeTranscribeSegments (p : NativeStreamingPolicy) (segTexts : List String)
    (audio_len : ℕ) (sample_rate : ℕ) (has_silence voice_ended : Bool) :
    Option NativeTransResult :=
  if segTexts.isEmpty then none
  else
    let text := pyStrip (String.join segTexts)
    let chars := text.toList
    if 3 < chars.length ∧ 3 ≤ nativeMaxRepeat chars then none
    else if 3 < chars.length ∧ chars.dedup.length = 1 ∧ 2 < chars.length then none
    else if text = ("") then none
    else
      let audio_duration := (audio_len : ℚ) / (sample_rate : ℚ)
      let commit := p.should_commit audio_duration has_silence text.length voice_ended
      if commit.1 then some { text := text, isFinal := commit.2 }
      else if 1 ≤ text.length ∧ (1 : ℚ) / 10 ≤ audio_duration then
        some { text := text, isFinal := false }
      else none

/-- State of the native router's `IncrementalContext`. -/
structure IncrementalContext where
  context_duration : ℚ
  sample_rate : ℕ
  max_context_samples : ℕ
  context_buffer : List ℚ
deriving DecidableEq

/-- Method `IncrementalContext.get_context_audio`: returns the
context-prefixed audio and the updated context state. -/
def IncrementalContext.get_context_audio (ctx : IncrementalContext)
    (current_audio : List ℚ) : List ℚ × IncrementalContext :=
  if !(ctx.context_buffer.isEmpty) then
    let combined := ctx.context_buffer ++ current_audio
    let overlap_samples := min current_audio.length (ctx.max_context_samples / 2)
    (combined, { ctx with
                 context_buffer := dequeExtend ctx.max_context_samples []
                   (pyLastSlice current_audio overlap_samples) })
  else
    let overlap_samples := min current_audio.length (ctx.max_context_samples / 2)
    (current_audio, { ctx with
                      context_buffer := dequeExtend ctx.max_context_samples ctx.context_buffer
                        (pyLastSlice current_audio overlap_samples) })

/-- State slice of `WhisperLiveKitNativeProcessor` sufficient for its
`flush` path: the byte buffer, the minimum-samples threshold, the
incremental context, the VAD silence level, and the streaming policy. -/
structure WhisperLiveKitNativeProcessor where
  sample_rate : ℕ
  min_samples : ℕ
  pcm_buffer : List ℕ
  incremental_context : IncrementalContext
  vad_has_silence : Bool
  streaming_policy : NativeStreamingPolicy
deriving DecidableEq

/-- Method `WhisperLiveKitNativeProcessor.flush`.  Note the guard in the
source compares `len(self.pcm_buffer)` — a byte count — against
`self.min_samples`, a sample count. -/
def WhisperLiveKitNativeProcessor.flush (st : WhisperLiveKitNativeProcessor)
    (engine : Option (List String)) :
    WhisperLiveKitNativeProcessor × Option NativeTransResult :=
  if st.min_samples ≤ st.pcm_buffer.length then
    if 2 ≤ st.pcm_buffer.length then
      let audio_float := (bytesToSamples st.pcm_buffer).map sampleToFloat
      let c := st.incremental_context.get_context_audio audio_float
      let result := engine.bind (fun segTexts =>
        nativeTranscribeSegments st.streaming_policy segTexts c.1.length st.sample_rate
          st.vad_has_silence true)
      match result with
      | some rd => ({ st with incremental_context := c.2 }, some { rd with isFinal := true })
      | none => ({ st with incremental_context := c.2 }, none)
    else (st, none)
  else (st, none)

/-- Derived predicate: `try_process` actually starts a processing pass at
time `now` — the trigger gate (enough data, plus an event, the time
fallback, or overflow) is satisfied and the pass is not deferred by the
mutual-exclusion check.  The body mirrors the corresponding expressions
of `try_process` exactly. -/
def PCMAudioProcessor.startsPass (s : PCMAudioProcessor) (now : ℚ) : Bool :=
  let current_samples := s.pcm_buffer.length / 2
  let time_since_last := now - s.last_process_time
  let max_buffer_samples := (pyInt ((s.sample_rate : ℚ) * 3)).toNat
  let buffer_overflow := decide (max_buffer_samples < current_samples)
  let voice_ended := s.voice_ended_detected ||
    (s.vad.has_silence && decide (s.min_samples ≤ current_samples))
  let voice_started := s.voice_activity_detected
  let has_enough_data := decide (s.min_samples ≤ current_samples)
  let event_triggered := voice_ended ||
    (voice_started && decide (s.chunk_duration ≤ time_since_last))
  let time_triggered := decide (s.chunk_duration ≤ time_since_last)
  let should_process := has_enough_data && (event_triggered || time_triggered || buffer_overflow)
  should_process && !(s.is_processing && !buffer_overflow &&
    !(decide (s.chunk_duration * 2 < time_since_last)))

/-- Derived value: the `voice_ended` flag computed at the top of
`try_process` (before the pending-event flags are reset). -/
def PCMAudioProcessor.voiceEndedOf (s : PCMAudioProcessor) : Bool :=
  s.voice_ended_detected ||
    (s.vad.has_silence && decide (s.min_samples ≤ s.pcm_buffer.length / 2))

/-- Derived value: `target_samples` in `try_process`. -/
def PCMAudioProcessor.targetSamplesOf (s : PCMAudioProcessor) : ℕ :=
  (pyInt ((s.sample_rate : ℚ) * s.chunk_duration)).toNat

/-- Derived value: `overlap_samples` in `try_process`. -/
def PCMAudioProcessor.overlapSamplesOf (s : PCMAudioProcessor) : ℕ :=
  (pyInt ((s.sample_rate : ℚ) * s.overlap)).toNat

/-- Derived value: `process_samples` in `try_process` (the slice size is
always byte-aligned, so the alignment truncation never fires). -/
def PCMAudioProcessor.processSamplesOf (s : PCMAudioProcessor) : ℕ :=
  min s.targetSamplesOf (s.pcm_buffer.length / 2)

/-- Derived value: the byte slice `pcm_bytes` extracted by `try_process`. -/
def PCMAudioProcessor.processSliceOf (s : PCMAudioProcessor) : List ℕ :=
  s.pcm_buffer.take (s.processSamplesOf * 2)

/-- Derived value: `remove_bytes`, the number of buffer bytes consumed by
one processing pass of `try_process`. -/
def PCMAudioProcessor.removeBytesOf (s : PCMAudioProcessor) : ℕ :=
  (max 0 ((s.processSamplesOf : ℤ) - (s.overlapSamplesOf : ℤ))).toNat * 2

lemma convertPcmToNumpy_length_pos {l : List ℕ} {a : List ℚ}
    (h : convertPcmToNumpy l = some a) : a.length ≠ 0 := by
  unfold convertPcmToNumpy at h
  simp only [] at h
  repeat' split at h
  all_goals try simp at h
  all_goals subst h; simp_all

lemma startsPass_parts {s : PCMAudioProcessor} {now : ℚ} (h : s.startsPass now = true) :
    (decide (s.min_samples ≤ s.pcm_buffer.length / 2) &&
      (s.voice_ended_detected ||
          s.vad.has_silence && decide (s.min_samples ≤ s.pcm_buffer.length / 2) ||
          s.voice_activity_detected && decide (s.chunk_duration ≤ now - s.last_process_time) ||
        decide (s.chunk_duration ≤ now - s.last_process_time) ||
        decide ((pyInt ((s.sample_rate : ℚ) * 3)).toNat < s.pcm_buffer.length / 2))) = true ∧
    (s.is_processing &&
      !decide ((pyInt ((s.sample_rate : ℚ) * 3)).toNat < s.pcm_buffer.length / 2) &&
      !decide (s.chunk_duration * 2 < now - s.last_process_time)) = false := by
  unfold PCMAudioProcessor.startsPass at h
  simp only [] at h
  rw [Bool.and_eq_true] at h
  obtain ⟨h1, h2⟩ := h
  rw [Bool.not_eq_true'] at h2
  exact ⟨h1, h2⟩

lemma startsPass_enough {s : PCMAudioProcessor} {now : ℚ} (h : s.startsPass now = true) :
    s.min_samples ≤ s.pcm_buffer.length / 2 := by
  have := (startsPass_parts h).1
  rw [Bool.and_eq_true] at this
  exact of_decide_eq_true this.1

lemma try_process_main (s : PCMAudioProcessor) (now : ℚ) (engine : Option (List SegmentOut))
    (arr : List ℚ)
    (hstart : s.startsPass now = true)
    (hconv : convertPcmToNumpy s.processSliceOf = some arr) :
    (s.try_process now engine).1 =
      { s with
        voice_activity_detected := false,
        voice_ended_detected := false,
        is_processing := false,
        total_processed_samples :=
          s.total_processed_samples + ((s.processSamplesOf : ℤ) - (s.overlapSamplesOf : ℤ)),
        pcm_buffer := s.pcm_buffer.drop s.removeBytesOf,
        last_process_time := now } ∧
    (s.try_process now engine).2.map (fun e => (e.text, e.startTime, e.endTime, e.segments)) =
      (engine.bind (fun segs => whisperTranscribeSegments segs s.voiceEndedOf
          ((arr.length : ℚ) / (s.sample_rate : ℚ)))).map
        (fun rd => (rd.text,
          max 0 ((s.total_processed_samples : ℚ) / (s.sample_rate : ℚ)),
          max (max 0 ((s.total_processed_samples : ℚ) / (s.sample_rate : ℚ)))
            (((s.total_processed_samples : ℚ) + (s.processSamplesOf : ℚ)) / (s.sample_rate : ℚ)),
          rd.segments)) := by
  obtain ⟨hsp, hdef⟩ := startsPass_parts hstart
  have henough := startsPass_enough hstart
  unfold PCMAudioProcessor.processSliceOf PCMAudioProcessor.processSamplesOf
    PCMAudioProcessor.targetSamplesOf at hconv
  have hlen_take :
      (s.pcm_buffer.take
        (min ((pyInt ((s.sample_rate : ℚ) * s.chunk_duration)).toNat) (s.pcm_buffer.length / 2) * 2)).length
      = min ((pyInt ((s.sample_rate : ℚ) * s.chunk_duration)).toNat) (s.pcm_buffer.length / 2) * 2 := by
    rw [List.length_take]
    omega
  unfold PCMAudioProcessor.voiceEndedOf PCMAudioProcessor.processSamplesOf
    PCMAudioProcessor.targetSamplesOf PCMAudioProcessor.overlapSamplesOf
    PCMAudioProcessor.removeBytesOf
  unfold PCMAudioProcessor.try_process
  simp only []
  rw [if_neg (c := (!(decide (s.min_samples ≤ s.pcm_buffer.length / 2) &&
      (s.voice_ended_detected ||
          s.vad.has_silence && decide (s.min_samples ≤ s.pcm_buffer.length / 2) ||
          s.voice_activity_detected && decide (s.chunk_duration ≤ now - s.last_process_time) ||
        decide (s.chunk_duration ≤ now - s.last_process_time) ||
        decide ((pyInt ((s.sample_rate : ℚ) * 3)).toNat < s.pcm_buffer.length / 2)))) = true)
    (by rw [hsp]; simp)]
  rw [if_neg (by rw [hdef]; simp)]
  rw [if_neg (by omega)]
  rw [hlen_take]
  have hpar : ¬((((pyInt ((s.sample_rate : ℚ) * s.chunk_duration)).toNat ⊓ (s.pcm_buffer.length / 2)) * 2) % 2 ≠ 0) := by
    omega
  simp only [if_neg hpar]
  rw [hlen_take]
  have hmd : (((pyInt ((s.sample_rate : ℚ) * s.chunk_duration)).toNat ⊓ (s.pcm_buffer.length / 2)) * 2) / 2
      = ((pyInt ((s.sample_rate : ℚ) * s.chunk_duration)).toNat ⊓ (s.pcm_buffer.length / 2)) := by
    omega
  rw [hmd]
  rw [hconv]
  simp only []
  rw [if_neg (convertPcmToNumpy_length_pos hconv)]
  simp only [PCMAudioProcessor.processSamplesOf, PCMAudioProcessor.targetSamplesOf,
    PCMAudioProcessor.overlapSamplesOf, PCMAudioProcessor.removeBytesOf,
    PCMAudioProcessor.voiceEndedOf]
  rcases hb : engine.bind (fun a =>
      whisperTranscribeSegments a
        (s.voice_ended_detected || s.vad.has_silence && decide (s.min_samples ≤ s.pcm_buffer.length / 2))
        ((arr.length : ℚ) / (s.sample_rate : ℚ))) with _ | rd
  · simp
  · simp


lemma try_process_convert_none (s : PCMAudioProcessor) (now : ℚ)
    (engine : Option (List SegmentOut))
    (hstart : s.startsPass now = true)
    (hconv : convertPcmToNumpy s.processSliceOf = none) :
    s.try_process now engine =
      ({ s with
         voice_activity_detected := false,
         voice_ended_detected := false,
         is_processing := false }, none) := by
  obtain ⟨hsp, hdef⟩ := startsPass_parts hstart
  have henough := startsPass_enough hstart
  unfold PCMAudioProcessor.processSliceOf PCMAudioProcessor.processSamplesOf
    PCMAudioProcessor.targetSamplesOf at hconv
  have hlen_take :
      (s.pcm_buffer.take
        (min ((pyInt ((s.sample_rate : ℚ) * s.chunk_duration)).toNat) (s.pcm_buffer.length / 2) * 2)).length
      = min ((pyInt ((s.sample_rate : ℚ) * s.chunk_duration)).toNat) (s.pcm_buffer.length / 2) * 2 := by
    rw [List.length_take]
    omega
  unfold PCMAudioProcessor.try_process
  simp only []
  rw [if_neg (by rw [hsp]; simp)]
  rw [if_neg (by rw [hdef]; simp)]
  rw [if_neg (by omega)]
  rw [hlen_take]
  have hpar : ¬((((pyInt ((s.sample_rate : ℚ) * s.chunk_duration)).toNat ⊓ (s.pcm_buffer.length / 2)) * 2) % 2 ≠ 0) := by
    omega
  simp only [if_neg hpar]
  rw [hconv]

lemma try_process_not_started (s : PCMAudioProcessor) (now : ℚ)
    (engine : Option (List SegmentOut)) (h : s.startsPass now = false) :
    s.try_process now engine = (s, none) ∨
    s.try_process now engine =
      ({ s with voice_activity_detected := false, voice_ended_detected := false }, none) := by
  have hparts := h
  unfold PCMAudioProcessor.startsPass at hparts
  simp only [] at hparts
  by_cases hsp : (decide (s.min_samples ≤ s.pcm_buffer.length / 2) &&
      (s.voice_ended_detected ||
          s.vad.has_silence && decide (s.min_samples ≤ s.pcm_buffer.length / 2) ||
          s.voice_activity_detected && decide (s.chunk_duration ≤ now - s.last_process_time) ||
        decide (s.chunk_duration ≤ now - s.last_process_time) ||
        decide ((pyInt ((s.sample_rate : ℚ) * 3)).toNat < s.pcm_buffer.length / 2))) = true
  · right
    rw [hsp, Bool.true_and, Bool.not_eq_false'] at hparts
    unfold PCMAudioProcessor.try_process
    simp only []
    rw [if_neg (by rw [hsp]; simp), if_pos hparts]
  · left
    have hsp' := eq_false_of_ne_true hsp
    unfold PCMAudioProcessor.try_process
    simp only []
    rw [if_pos (by rw [hsp']; rfl)]


lemma try_process_c1 (s : PCMAudioProcessor) (now : ℚ) (engine : Option (List SegmentOut))
    (hov1 : s.overlapSamplesOf ≤ s.targetSamplesOf)
    (hov2 : s.overlapSamplesOf ≤ s.min_samples) :
    ((s.try_process now engine).1.sample_rate = s.sample_rate ∧
     (s.try_process now engine).1.chunk_duration = s.chunk_duration ∧
     (s.try_process now engine).1.overlap = s.overlap ∧
     (s.try_process now engine).1.min_samples = s.min_samples) ∧
    s.total_processed_samples ≤ (s.try_process now engine).1.total_processed_samples ∧
    (∀ e ∈ (s.try_process now engine).2,
      e.startTime = max 0 ((s.total_processed_samples : ℚ) / (s.sample_rate : ℚ)) ∧
      e.startTime ≤ e.endTime) := by
  by_cases hstart : s.startsPass now = true
  · rcases hc : convertPcmToNumpy s.processSliceOf with _ | arr
    · rw [try_process_convert_none s now engine hstart hc]
      simp
    · obtain ⟨h1, h2⟩ := try_process_main s now engine arr hstart hc
      have hps : s.overlapSamplesOf ≤ s.processSamplesOf := by
        have := startsPass_enough hstart
        unfold PCMAudioProcessor.processSamplesOf
        omega
      refine ⟨?_, ?_, ?_⟩
      · rw [h1]
        simp
      · rw [h1]
        simp only []
        omega
      · intro e he
        rcases hee : (s.try_process now engine).2 with _ | e'
        · rw [hee] at he
          simp at he
        · rw [hee] at he
          simp only [Option.mem_def, Option.some_inj] at he
          subst he
          rw [hee] at h2
          rcases hbb : engine.bind (fun segs => whisperTranscribeSegments segs s.voiceEndedOf
              ((arr.length : ℚ) / (s.sample_rate : ℚ))) with _ | rd
          · rw [hbb] at h2
            exact absurd h2 (by simp)
          · rw [hbb] at h2
            simp only [Option.map_some', Option.some_inj, Prod.ext_iff] at h2
            have hst := h2.2.1
            have hen := h2.2.2.1
            refine ⟨hst, ?_⟩
            rw [hst, hen]
            exact le_max_left _ _
  · have h := try_process_not_started s now engine (eq_false_of_ne_true hstart)
    rcases h with h | h
    · rw [h]
      simp
    · rw [h]
      simp

lemma flush_c1 (s : PCMAudioProcessor) (engine : Option (List SegmentOut)) :
    ((s.flush engine).1.sample_rate = s.sample_rate ∧
     (s.flush engine).1.chunk_duration = s.chunk_duration ∧
     (s.flush engine).1.overlap = s.overlap ∧
     (s.flush engine).1.min_samples = s.min_samples) ∧
    s.total_processed_samples ≤ (s.flush engine).1.total_processed_samples ∧
    (∀ e ∈ (s.flush engine).2,
      e.startTime = max 0 ((s.total_processed_samples : ℚ) / (s.sample_rate : ℚ)) ∧
      e.startTime ≤ e.endTime) := by
  unfold PCMAudioProcessor.flush
  simp only []
  repeat' split
  all_goals try simp
  all_goals omega

lemma add_pcm_data_c1 (s : PCMAudioProcessor) (data : List ℕ) :
    (s.add_pcm_data data).sample_rate = s.sample_rate ∧
    (s.add_pcm_data data).chunk_duration = s.chunk_duration ∧
    (s.add_pcm_data data).overlap = s.overlap ∧
    (s.add_pcm_data data).min_samples = s.min_samples ∧
    (s.add_pcm_data data).total_processed_samples = s.total_processed_samples := by
  unfold PCMAudioProcessor.add_pcm_data
  simp


lemma stepOp_c1 (s : PCMAudioProcessor) (op : SessionOp)
    (hov1 : s.overlapSamplesOf ≤ s.targetSamplesOf)
    (hov2 : s.overlapSamplesOf ≤ s.min_samples) :
    ((stepOp s op).1.sample_rate = s.sample_rate ∧
     (stepOp s op).1.chunk_duration = s.chunk_duration ∧
     (stepOp s op).1.overlap = s.overlap ∧
     (stepOp s op).1.min_samples = s.min_samples) ∧
    s.total_processed_samples ≤ (stepOp s op).1.total_processed_samples ∧
    (∀ e ∈ (stepOp s op).2,
      e.startTime = max 0 ((s.total_processed_samples : ℚ) / (s.sample_rate : ℚ)) ∧
      e.startTime ≤ e.endTime) := by
  cases op with
  | addData d =>
    have h := add_pcm_data_c1 s d
    exact ⟨⟨h.1, h.2.1, h.2.2.1, h.2.2.2.1⟩, le_of_eq h.2.2.2.2.symm, by simp [stepOp]⟩
  | tryProc now engine => exact try_process_c1 s now engine hov1 hov2
  | flushOp engine => exact flush_c1 s engine

lemma derivedSamples_eq {s t : PCMAudioProcessor}
    (hsr : t.sample_rate = s.sample_rate) (hcd : t.chunk_duration = s.chunk_duration)
    (hov : t.overlap = s.overlap) :
    t.overlapSamplesOf = s.overlapSamplesOf ∧ t.targetSamplesOf = s.targetSamplesOf := by
  unfold PCMAudioProcessor.overlapSamplesOf PCMAudioProcessor.targetSamplesOf
  rw [hsr, hcd, hov]
  exact ⟨rfl, rfl⟩

lemma runOps_c1 (ops : List SessionOp) : ∀ s : PCMAudioProcessor,
    s.overlapSamplesOf ≤ s.targetSamplesOf →
    s.overlapSamplesOf ≤ s.min_samples →
    0 < s.sample_rate →
    0 ≤ s.total_processed_samples →
    s.total_processed_samples ≤ (runOps s ops).1.total_processed_samples ∧
    (∀ e ∈ (runOps s ops).2,
      (s.total_processed_samples : ℚ) / (s.sample_rate : ℚ) ≤ e.startTime ∧
      e.startTime ≤ e.endTime) ∧
    List.Chain' (fun a b => a.startTime ≤ b.startTime) (runOps s ops).2 := by
  induction ops with
  | nil =>
    intro s _ _ _ _
    simp [runOps]
  | cons op rest ih =>
    intro s h1 h2 h3 h4
    obtain ⟨hfields, htps, hemit⟩ := stepOp_c1 s op h1 h2
    obtain ⟨hde1, hde2⟩ := derivedSamples_eq hfields.1 hfields.2.1 hfields.2.2.1
    have h1' : (stepOp s op).1.overlapSamplesOf ≤ (stepOp s op).1.targetSamplesOf := by
      rw [hde1, hde2]; exact h1
    have h2' : (stepOp s op).1.overlapSamplesOf ≤ (stepOp s op).1.min_samples := by
      rw [hde1, hfields.2.2.2]; exact h2
    have h3' : 0 < (stepOp s op).1.sample_rate := by rw [hfields.1]; exact h3
    have h4' : 0 ≤ (stepOp s op).1.total_processed_samples := le_trans h4 htps
    obtain ⟨ihtps, ihbound, ihchain⟩ := ih (stepOp s op).1 h1' h2' h3' h4'
    have hsrQ : (0 : ℚ) < (s.sample_rate : ℚ) := by exact_mod_cast h3
    have hdivmono : (s.total_processed_samples : ℚ) / (s.sample_rate : ℚ) ≤
        ((stepOp s op).1.total_processed_samples : ℚ) / (s.sample_rate : ℚ) := by
      apply (div_le_div_iff_of_pos_right hsrQ).mpr
      exact_mod_cast htps
    have hbound0 : ∀ e ∈ (runOps (stepOp s op).1 rest).2,
        (s.total_processed_samples : ℚ) / (s.sample_rate : ℚ) ≤ e.startTime ∧
        e.startTime ≤ e.endTime := by
      intro e he
      refine ⟨le_trans hdivmono ?_, (ihbound e he).2⟩
      have := (ihbound e he).1
      rwa [hfields.1] at this
    have hq : runOps s (op :: rest) =
        ((runOps (stepOp s op).1 rest).1,
          (stepOp s op).2.toList ++ (runOps (stepOp s op).1 rest).2) := rfl
    rw [hq]
    refine ⟨le_trans htps ihtps, ?_, ?_⟩
    · intro e he
      simp only [List.mem_append] at he
      rcases he with he | he
      · rcases hop : (stepOp s op).2 with _ | e0
        · rw [hop] at he; simp at he
        · rw [hop] at he
          simp only [Option.toList_some, List.mem_singleton] at he
          subst he
          obtain ⟨hst, hle⟩ := hemit e (by rw [hop]; rfl)
          exact ⟨by rw [hst]; exact le_max_right _ _, hle⟩
      · exact hbound0 e he
    · rcases hop : (stepOp s op).2 with _ | e0
      · simpa using ihchain
      · simp only [Option.toList_some, List.singleton_append]
        rw [List.chain'_cons']
        refine ⟨?_, ihchain⟩
        intro b hb
        have hbmem : b ∈ (runOps (stepOp s op).1 rest).2 := List.mem_of_mem_head? hb
        obtain ⟨hst, _⟩ := hemit e0 (by rw [hop]; rfl)
        have hb1 := (hbound0 b hbmem).1
        rw [hst]
        apply max_le
        · exact le_trans (div_nonneg (by exact_mod_cast h4) (le_of_lt hsrQ)) hb1
        · exact hb1
  

lemma bytesToSamples_replicate_zero : ∀ n : ℕ,
    bytesToSamples (List.replicate (2 * n) 0) = List.replicate n 0
  | 0 => rfl
  | n + 1 => by
    have h : 2 * (n + 1) = (2 * n) + 1 + 1 := by ring
    rw [h]
    show bytesToSamples (0 :: 0 :: List.replicate (2 * n) 0) = List.replicate (n + 1) 0
    rw [show bytesToSamples (0 :: 0 :: List.replicate (2 * n) 0)
        = decodeInt16 0 0 :: bytesToSamples (List.replicate (2 * n) 0) from rfl]
    rw [bytesToSamples_replicate_zero n]
    rfl

lemma meanSquare_replicate_zero (n : ℕ) : meanSquare (List.replicate n (0 : ℚ)) = 0 := by
  unfold meanSquare
  simp

lemma maxAbs_replicate_zero (n : ℕ) : maxAbs (List.replicate n (0 : ℚ)) = 0 := by
  induction n with
  | zero => rfl
  | succ k ih =>
    rw [List.replicate_succ]
    unfold maxAbs at ih ⊢
    rw [List.foldr_cons, ih]
    simp

lemma countSignChanges_replicate (x : ℚ) : ∀ n : ℕ,
    countSignChanges (List.replicate n x) = 0
  | 0 => rfl
  | 1 => rfl
  | n + 2 => by
    rw [List.replicate_succ, List.replicate_succ]
    show (if signQ x ≠ signQ x then 1 else 0) + countSignChanges (x :: List.replicate n x) = 0
    rw [if_neg (by simp)]
    rw [← List.replicate_succ]
    rw [countSignChanges_replicate x (n + 1)]

lemma zcrOf_replicate (x : ℚ) (n : ℕ) : zcrOf (List.replicate n x) = 0 := by
  unfold zcrOf
  rw [countSignChanges_replicate]
  simp

lemma convertPcmToNumpy_replicate_zero (n : ℕ) (h : 1 ≤ n) :
    convertPcmToNumpy (List.replicate (2 * n) 0) = none := by
  have h2' : ¬((List.replicate (2 * n) (0 : ℕ)).length < 2) := by simp; omega
  have hpar : ¬((List.replicate (2 * n) (0 : ℕ)).length % 2 ≠ 0) := by
    simp [Nat.mul_mod_right]
  unfold convertPcmToNumpy
  simp only []
  rw [if_neg h2']
  simp only [if_neg hpar]
  rw [bytesToSamples_replicate_zero n]
  rw [if_neg (by simp; omega)]
  rw [List.map_replicate]
  rw [show sampleToFloat 0 = 0 by simp [sampleToFloat]]
  rw [if_pos]
  rw [meanSquare_replicate_zero, maxAbs_replicate_zero, zcrOf_replicate]
  norm_num [VAD_THRESHOLD_EPSILON, VAD_THRESHOLD_LOW, VAD_THRESHOLD_MEDIUM]


lemma dequeExtend_length {α : Type} (m : ℕ) (b d : List α) :
    (dequeExtend m b d).length = min m (b.length + d.length) := by
  unfold dequeExtend
  simp only [List.length_drop, List.length_append]
  omega

lemma add_pcm_data_buffer (s : PCMAudioProcessor) (data : List ℕ) :
    (s.add_pcm_data data).pcm_buffer.length ≤ s.pcm_buffer_maxlen ∧
    (s.add_pcm_data data).pcm_buffer_maxlen = s.pcm_buffer_maxlen := by
  unfold PCMAudioProcessor.add_pcm_data
  refine ⟨?_, rfl⟩
  simp only []
  rw [dequeExtend_length]
  omega

lemma try_process_buffer (s : PCMAudioProcessor) (now : ℚ) (engine : Option (List SegmentOut)) :
    (s.try_process now engine).1.pcm_buffer.length ≤ s.pcm_buffer.length ∧
    (s.try_process now engine).1.pcm_buffer_maxlen = s.pcm_buffer_maxlen := by
  unfold PCMAudioProcessor.try_process
  simp only []
  repeat' split
  all_goals simp

lemma flush_buffer (s : PCMAudioProcessor) (engine : Option (List SegmentOut)) :
    (s.flush engine).1.pcm_buffer = s.pcm_buffer ∧
    (s.flush engine).1.pcm_buffer_maxlen = s.pcm_buffer_maxlen := by
  unfold PCMAudioProcessor.flush
  simp only []
  repeat' split
  all_goals simp

lemma runOps_buffer (ops : List SessionOp) : ∀ s : PCMAudioProcessor,
    s.pcm_buffer.length ≤ s.pcm_buffer_maxlen →
    (runOps s ops).1.pcm_buffer.length ≤ (runOps s ops).1.pcm_buffer_maxlen ∧
    (runOps s ops).1.pcm_buffer_maxlen = s.pcm_buffer_maxlen := by
  induction ops with
  | nil => intro s h; exact ⟨h, rfl⟩
  | cons op rest ih =>
    intro s h
    have hstep : (stepOp s op).1.pcm_buffer.length ≤ (stepOp s op).1.pcm_buffer_maxlen ∧
        (stepOp s op).1.pcm_buffer_maxlen = s.pcm_buffer_maxlen := by
      cases op with
      | addData d =>
        have := add_pcm_data_buffer s d
        exact ⟨by rw [show (stepOp s (SessionOp.addData d)).1 = s.add_pcm_data d from rfl,
          this.2]; exact this.1, this.2⟩
      | tryProc now engine =>
        have := try_process_buffer s now engine
        exact ⟨by rw [show (stepOp s (SessionOp.tryProc now engine)).1
          = (s.try_process now engine).1 from rfl, this.2]; exact le_trans this.1 h, this.2⟩
      | flushOp engine =>
        have := flush_buffer s engine
        exact ⟨by rw [show (stepOp s (SessionOp.flushOp engine)).1 = (s.flush engine).1 from rfl,
          this.1, this.2]; exact h, this.2⟩
    have hq : runOps s (op :: rest) =
        ((runOps (stepOp s op).1 rest).1,
          (stepOp s op).2.toList ++ (runOps (stepOp s op).1 rest).2) := rfl
    rw [hq]
    obtain ⟨ih1, ih2⟩ := ih (stepOp s op).1 hstep.1
    exact ⟨ih1, by rw [ih2, hstep.2]⟩





lemma detect_voice_replicate_zero (v : EventDrivenVAD) (n : ℕ) :
    v.detect_voice (List.replicate (2 * n) 0) = false := by
  unfold EventDrivenVAD.detect_voice
  split
  · rfl
  · rw [bytesToSamples_replicate_zero n, List.map_replicate,
      show sampleToFloat 0 = 0 by simp [sampleToFloat], meanSquare_replicate_zero]
    exact decide_eq_false (not_lt.2 (sq_nonneg _))

lemma detect_replicate_zero_idle (v : EventDrivenVAD) (hv : v.voice_started = false) (n : ℕ) :
    v.detect (List.replicate (2 * n) 0) = (v, none) := by
  unfold EventDrivenVAD.detect
  simp only []
  rw [detect_voice_replicate_zero]
  simp [hv]

/-- A deque extend that fits entirely within `maxlen` keeps all elements. -/
lemma dequeExtend_all {α : Type} (m : ℕ) (d : List α) (h : d.length ≤ m) :
    dequeExtend m [] d = d := by
  unfold dequeExtend
  simp only [List.nil_append]
  rw [Nat.sub_eq_zero_of_le h, List.drop_zero]


def EventDrivenVAD.run (v : EventDrivenVAD) : List (List ℕ) → EventDrivenVAD × List VadEvent
  | [] => (v, [])
  | chunk :: rest =>
    let d := v.detect chunk
    let r := d.1.run rest
    (r.1, d.2.toList ++ r.2)

lemma detect_zeros_active (v : EventDrivenVAD) (n : ℕ) (hv : v.voice_started = true)
    (hcross : v.min_silence_duration ≤ v.silence_duration + ((n : ℚ) / (v.sample_rate : ℚ))) :
    v.detect (List.replicate (2 * n) 0)
      = ({ v with voice_started := false, silence_duration := 0 }, some VadEvent.voiceEnded) := by
  unfold EventDrivenVAD.detect
  rw [detect_voice_replicate_zero, List.length_replicate]
  rw [show (2 * n / 2 : ℕ) = n from by omega]
  simp [hv, hcross]

lemma c8_init_expand : EventDrivenVAD.init (1/100) (1/2)
    = (⟨1/100, 1/2, false, 0, 16000⟩ : EventDrivenVAD) := rfl

lemma c8_dv1 : ((⟨1/100, 1/2, false, 0, 16000⟩ : EventDrivenVAD)).detect_voice [0, 64]
    = true := by
  unfold EventDrivenVAD.detect_voice
  rw [if_neg (by norm_num)]
  rw [show meanSquare ((bytesToSamples [0, 64]).map sampleToFloat) = 1/4 from by
    with_unfolding_all decide]
  rw [decide_eq_true_eq]
  norm_num

lemma c8_step1 : ((⟨1/100, 1/2, false, 0, 16000⟩ : EventDrivenVAD).detect [0, 64])
    = ((⟨1/100, 1/2, true, 0, 16000⟩ : EventDrivenVAD), some VadEvent.voiceStarted) := by
  unfold EventDrivenVAD.detect
  rw [c8_dv1]
  rfl

lemma c8_step2 : ((⟨1/100, 1/2, true, 0, 16000⟩ : EventDrivenVAD).detect
      (List.replicate 16000 0))
    = ((⟨1/100, 1/2, false, 0, 16000⟩ : EventDrivenVAD), some VadEvent.voiceEnded) := by
  rw [show (16000 : ℕ) = 2 * 8000 from by norm_num]
  exact detect_zeros_active _ 8000 rfl (by norm_num)

lemma c8_dv3 : ((⟨1/100, 1/2, false, 0, 16000⟩ : EventDrivenVAD)).detect_voice [0, 0]
    = false := by
  unfold EventDrivenVAD.detect_voice
  rw [if_neg (by norm_num)]
  rw [show meanSquare ((bytesToSamples [0, 0]).map sampleToFloat) = 0 from by
    with_unfolding_all decide]
  rw [decide_eq_false_iff_not]
  norm_num

lemma c8_step3 : ((⟨1/100, 1/2, false, 0, 16000⟩ : EventDrivenVAD).detect [0, 0])
    = ((⟨1/100, 1/2, false, 0, 16000⟩ : EventDrivenVAD), none) := by
  unfold EventDrivenVAD.detect
  rw [c8_dv3]
  rfl

lemma c8_trace : (EventDrivenVAD.init (1/100) (1/2)).run
    [[0, 64], List.replicate 16000 0, [0, 0]]
    = ((⟨1/100, 1/2, false, 0, 16000⟩ : EventDrivenVAD),
       [VadEvent.voiceStarted, VadEvent.voiceEnded]) := by
  rw [c8_init_expand]
  unfold EventDrivenVAD.run
  rw [c8_step1]
  simp only []
  unfold EventDrivenVAD.run
  rw [c8_step2]
  simp only []
  unfold EventDrivenVAD.run
  rw [c8_step3]
  rfl

lemma detect_silence_lt (v : EventDrivenVAD) (c : List ℕ)
    (hmin : 0 < v.min_silence_duration)
    (hs : v.silence_duration < v.min_silence_duration) :
    ((v.detect c).1).silence_duration < ((v.detect c).1).min_silence_duration ∧
    ((v.detect c).1).min_silence_duration = v.min_silence_duration := by
  unfold EventDrivenVAD.detect
  simp only []
  repeat' split
  all_goals simp_all

lemma run_silence_lt (chunks : List (List ℕ)) : ∀ v : EventDrivenVAD,
    0 < v.min_silence_duration →
    v.silence_duration < v.min_silence_duration →
    ((v.run chunks).1).silence_duration < ((v.run chunks).1).min_silence_duration ∧
    ((v.run chunks).1).min_silence_duration = v.min_silence_duration := by
  induction chunks with
  | nil => intro v h1 h2; exact ⟨h2, rfl⟩
  | cons c rest ih =>
    intro v h1 h2
    obtain ⟨hlt, heq⟩ := detect_silence_lt v c h1 h2
    have hq : (v.run (c :: rest)).1 = ((v.detect c).1.run rest).1 := rfl
    rw [hq]
    obtain ⟨ih1, ih2⟩ := ih (v.detect c).1 (heq ▸ h1) hlt
    exact ⟨ih1, by rw [ih2, heq]⟩

lemma run_has_silence_false (chunks : List (List ℕ)) (v : EventDrivenVAD)
    (h1 : 0 < v.min_silence_duration)
    (h2 : v.silence_duration < v.min_silence_duration) :
    ((v.run chunks).1).has_silence = false := by
  obtain ⟨hlt, _⟩ := run_silence_lt chunks v h1 h2
  unfold EventDrivenVAD.has_silence
  exact decide_eq_false (not_le.2 hlt)

/-- Alternation predicate: `altFrom true evs` says the event list `evs`
alternates voiceStarted, voiceEnded, voiceStarted, ... beginning with
voiceStarted; `altFrom false evs` beginning with voiceEnded. -/
def altFrom : Bool → List VadEvent → Bool
  | _, [] => true
  | true, VadEvent.voiceStarted :: t => altFrom false t
  | true, VadEvent.voiceEnded :: _ => false
  | false, VadEvent.voiceEnded :: t => altFrom true t
  | false, VadEvent.voiceStarted :: _ => false

lemma detect_cases (v : EventDrivenVAD) (c : List ℕ) :
    ((v.detect c).2 = none ∧ ((v.detect c).1).voice_started = v.voice_started) ∨
    ((v.detect c).2 = some VadEvent.voiceStarted ∧ v.voice_started = false ∧
      ((v.detect c).1).voice_started = true) ∨
    ((v.detect c).2 = some VadEvent.voiceEnded ∧ v.voice_started = true ∧
      ((v.detect c).1).voice_started = false) := by
  unfold EventDrivenVAD.detect
  simp only []
  repeat' split
  all_goals simp_all

lemma run_altFrom (chunks : List (List ℕ)) : ∀ v : EventDrivenVAD,
    altFrom (!v.voice_started) (v.run chunks).2 = true := by
  induction chunks with
  | nil =>
    intro v
    show altFrom (!v.voice_started) [] = true
    cases (!v.voice_started) <;> rfl
  | cons c rest ih =>
    intro v
    have hq : v.run (c :: rest)
        = (((v.detect c).1.run rest).1, (v.detect c).2.toList ++ ((v.detect c).1.run rest).2) :=
      rfl
    rw [hq]
    rcases detect_cases v c with ⟨he, hs⟩ | ⟨he, hs0, hs1⟩ | ⟨he, hs0, hs1⟩
    · simp only [he, Option.toList_none, List.nil_append]
      have := ih (v.detect c).1
      rwa [hs] at this
    · simp only [he, hs0, Option.toList_some, List.singleton_append, Bool.not_false]
      have := ih (v.detect c).1
      rw [hs1] at this
      simpa [altFrom] using this
    · simp only [he, hs0, Option.toList_some, List.singleton_append, Bool.not_true]
      have := ih (v.detect c).1
      rw [hs1] at this
      simpa [altFrom] using this

lemma detect_started_iff (v : EventDrivenVAD) (c : List ℕ) :
    (v.detect c).2 = some VadEvent.voiceStarted ↔
      (v.detect_voice c = true ∧ v.voice_started = false) := by
  unfold EventDrivenVAD.detect
  simp only []
  repeat' split
  all_goals simp_all

lemma detect_ended_iff (v : EventDrivenVAD) (c : List ℕ) :
    (v.detect c).2 = some VadEvent.voiceEnded ↔
      (v.detect_voice c = false ∧ v.voice_started = true ∧
        v.min_silence_duration ≤
          v.silence_duration + ((c.length / 2 : ℕ) : ℚ) / (v.sample_rate : ℚ)) := by
  unfold EventDrivenVAD.detect
  simp only []
  repeat' split
  all_goals simp_all

lemma try_process_deferred (s : PCMAudioProcessor) (now : ℚ)
    (engine : Option (List SegmentOut))
    (hp : s.is_processing = true)
    (hflow : s.pcm_buffer.length / 2 ≤ (pyInt ((s.sample_rate : ℚ) * 3)).toNat)
    (ht2 : now - s.last_process_time ≤ s.chunk_duration * 2)
    (henough : s.min_samples ≤ s.pcm_buffer.length / 2)
    (htrig : s.voice_ended_detected = true ∨ s.vad.has_silence = true ∨
      s.chunk_duration ≤ now - s.last_process_time) :
    s.try_process now engine
      = ({ s with voice_activity_detected := false, voice_ended_detected := false }, none) := by
  have hsp : (decide (s.min_samples ≤ s.pcm_buffer.length / 2) &&
      (s.voice_ended_detected ||
          s.vad.has_silence && decide (s.min_samples ≤ s.pcm_buffer.length / 2) ||
          s.voice_activity_detected && decide (s.chunk_duration ≤ now - s.last_process_time) ||
        decide (s.chunk_duration ≤ now - s.last_process_time) ||
        decide ((pyInt ((s.sample_rate : ℚ) * 3)).toNat < s.pcm_buffer.length / 2))) = true := by
    rcases htrig with h | h | h <;> simp [henough, h]
  have hdefer : (s.is_processing &&
      !decide ((pyInt ((s.sample_rate : ℚ) * 3)).toNat < s.pcm_buffer.length / 2) &&
      !decide (s.chunk_duration * 2 < now - s.last_process_time)) = true := by
    simp only [hp, Bool.true_and, Bool.and_eq_true, Bool.not_eq_true',
      decide_eq_false_iff_not, not_lt]
    exact ⟨hflow, ht2⟩
  unfold PCMAudioProcessor.try_process
  simp only []
  rw [if_neg (by rw [hsp]; simp), if_pos hdefer]

/-- Counterexample to claim C4: the whisper router's `should_commit` has
no max-chunk-duration override.  At chunk duration 2.5 s (which is at
least `max_chunk_duration = 2.0`), text length 5 and no silence, it
returns (commit, not final) where the claim requires (commit, final). -/
theorem c4_policy_counterexample :
    ((⟨3/10, 2, 1/2⟩ : StreamingPolicy).should_commit (5/2) false 5 = (true, false)) ∧
    ((⟨3/10, 2, 1/2⟩ : StreamingPolicy).max_chunk_duration ≤ (5/2 : ℚ)) := by
  constructor
  · with_unfolding_all decide
  · norm_num

/-- Claim C4 as amended: under (duration at least the minimum chunk, text
long enough, no silence, no voice-ended flag) the native router's policy
commits with `is_final` exactly when the duration reaches
`max_chunk_duration`, while the whisper router's policy always returns
(commit, not final) — it has no max-chunk-duration exception. -/
theorem c4_policy_amended (p : StreamingPolicy) (q : NativeStreamingPolicy) (d : ℚ) (n : ℕ)
    (hp : p.min_chunk_duration ≤ d) (hn : MIN_TEXT_LENGTH_FOR_COMMIT ≤ n)
    (hq : q.min_chunk_duration ≤ d) :
    p.should_commit d false n = (true, false) ∧
    q.should_commit d false n false =
      (if q.max_chunk_duration ≤ d then (true, true) else (true, false)) := by
  have hn1 : 1 ≤ n := le_trans (by norm_num [MIN_TEXT_LENGTH_FOR_COMMIT]) hn
  constructor
  · unfold StreamingPolicy.should_commit
    rw [if_neg (by simp), if_neg (by simp), if_pos ⟨hp, hn⟩]
  · unfold NativeStreamingPolicy.should_commit
    rw [if_neg (by simp), if_neg (by simp), if_neg (by simp), if_pos ⟨hq, hn1⟩]

/-- Witness for c4_policy_amended at the routers' configured policies,
duration 2.5 s and text length 5. -/
theorem c4_policy_amended_witness :
    ((3/10 : ℚ) ≤ 5/2 ∧ MIN_TEXT_LENGTH_FOR_COMMIT ≤ 5 ∧ (6/10 : ℚ) ≤ 5/2) ∧
    ((⟨3/10, 2, 1/2⟩ : StreamingPolicy).should_commit (5/2) false 5 = (true, false) ∧
     (⟨6/10, 2, 1/2⟩ : NativeStreamingPolicy).should_commit (5/2) false 5 false =
       (if (⟨6/10, 2, 1/2⟩ : NativeStreamingPolicy).max_chunk_duration ≤ (5/2 : ℚ)
        then (true, true) else (true, false))) :=
  ⟨⟨by norm_num, by norm_num [MIN_TEXT_LENGTH_FOR_COMMIT], by norm_num⟩,
   c4_policy_amended ⟨3/10, 2, 1/2⟩ ⟨6/10, 2, 1/2⟩ (5/2) 5 (by norm_num)
     (by norm_num [MIN_TEXT_LENGTH_FOR_COMMIT]) (by norm_num)⟩

/-- Session state used by the C6 counterexample: the whisper processor at
its route configuration with 2 residual buffered samples, far below the
4800-sample minimum. -/
def c6State : PCMAudioProcessor :=
  { PCMAudioProcessor.init 16000 (3/10) (1/10) 4800 0 with pcm_buffer := [0, 64, 0, 64] }

set_option maxRecDepth 8000 in
/-- Counterexample to claim C6: the whisper router's `flush` has no
minimum-size gate at all — with residual audio far below the minimum
processable size (2 samples against a 4800-sample minimum) and an engine
returning text, flush still emits a final result. -/
theorem c6_flush_counterexample :
    (c6State.pcm_buffer.length / 2 < c6State.min_samples) ∧
    ((c6State.flush (some [⟨"ab", 0, 1⟩])).2.map
      (fun (e : EmitResult) => (e.text, e.isFinal))) = some (("ab", true)) := by
  constructor
  · with_unfolding_all decide
  · with_unfolding_all decide

/-- Claim C6 as amended: only the native router's flush drops residual
audio, and its gate compares the buffer's byte count (2 bytes per
sample) against `min_samples`, so residual below `min_samples` bytes
(i.e. `min_samples / 2` samples, 0.15 s at the route configuration) is
silently dropped; the whisper router's flush processes any nonempty
residual regardless of the minimum. -/
theorem c6_native_flush_amended (st : WhisperLiveKitNativeProcessor)
    (engine : Option (List String))
    (h : st.pcm_buffer.length < st.min_samples) :
    st.flush engine = (st, none) := by
  unfold WhisperLiveKitNativeProcessor.flush
  rw [if_neg (by omega)]

/-- Witness for c6_native_flush_amended: a native processor with a
2-byte residual buffer against min_samples = 4800. -/
theorem c6_native_flush_amended_witness :
    ((⟨16000, 4800, [0, 64], ⟨2, 16000, 32000, []⟩, false, ⟨6/10, 2, 1/2⟩⟩
        : WhisperLiveKitNativeProcessor).pcm_buffer.length <
      (⟨16000, 4800, [0, 64], ⟨2, 16000, 32000, []⟩, false, ⟨6/10, 2, 1/2⟩⟩
        : WhisperLiveKitNativeProcessor).min_samples) ∧
    (⟨16000, 4800, [0, 64], ⟨2, 16000, 32000, []⟩, false, ⟨6/10, 2, 1/2⟩⟩
        : WhisperLiveKitNativeProcessor).flush (some [("ok")])
      = (⟨16000, 4800, [0, 64], ⟨2, 16000, 32000, []⟩, false, ⟨6/10, 2, 1/2⟩⟩, none) :=
  ⟨by norm_num,
   c6_native_flush_amended _ (some [("ok")]) (by norm_num)⟩

/-- Claim C10: entering `try_process` while a pass is already running,
with no buffer overflow and at most twice `chunk_duration` elapsed,
returns None with the buffer and `total_processed_samples` unchanged —
but the pending VAD-event flags that triggered the deferred pass have
already been reset to false, so they are consumed rather than preserved. -/
theorem c10_deferred_pass_consumes_flags (s : PCMAudioProcessor) (now : ℚ)
    (engine : Option (List SegmentOut))
    (hp : s.is_processing = true)
    (hflow : s.pcm_buffer.length / 2 ≤ (pyInt ((s.sample_rate : ℚ) * 3)).toNat)
    (ht2 : now - s.last_process_time ≤ s.chunk_duration * 2)
    (henough : s.min_samples ≤ s.pcm_buffer.length / 2)
    (htrig : s.voice_ended_detected = true ∨ s.vad.has_silence = true ∨
      s.chunk_duration ≤ now - s.last_process_time) :
    s.try_process now engine
      = ({ s with voice_activity_detected := false, voice_ended_detected := false }, none) :=
  try_process_deferred s now engine hp hflow ht2 henough htrig

/-- Session state used by the C10 witness: a tiny whisper processor that
is mid-pass with a pending voice-ended flag. -/
def c10State : PCMAudioProcessor :=
  { PCMAudioProcessor.init 2 1 0 1 0 with
    pcm_buffer := [0, 64],
    is_processing := true,
    voice_ended_detected := true }

/-- Witness for c10_deferred_pass_consumes_flags at a concrete deferred
pass: the pending voice-ended flag is consumed while buffer and counter
stay put. -/
theorem c10_deferred_pass_consumes_flags_witness :
    (c10State.is_processing = true ∧
     c10State.pcm_buffer.length / 2 ≤ (pyInt ((c10State.sample_rate : ℚ) * 3)).toNat ∧
     (3/2 : ℚ) - c10State.last_process_time ≤ c10State.chunk_duration * 2 ∧
     c10State.min_samples ≤ c10State.pcm_buffer.length / 2 ∧
     c10State.voice_ended_detected = true) ∧
    c10State.try_process (3/2) none
      = ({ c10State with voice_activity_detected := false, voice_ended_detected := false }, none) :=
  ⟨⟨by with_unfolding_all decide, by with_unfolding_all decide, by with_unfolding_all decide,
    by with_unfolding_all decide, by with_unfolding_all decide⟩,
   c10_deferred_pass_consumes_flags c10State (3/2) none
     (by with_unfolding_all decide) (by with_unfolding_all decide)
     (by with_unfolding_all decide) (by with_unfolding_all decide)
     (Or.inl (by with_unfolding_all decide))⟩

lemma nativeMaxRepeatAux_replicate (c : Char) (k : ℕ) :
    ∀ (r m : ℕ), nativeMaxRepeatAux (List.replicate (k + 1) c) c r m = max m (r + (k + 1)) := by
  induction k with
  | zero =>
    intro r m
    rw [show List.replicate (0 + 1) c = [c] from rfl]
    simp [nativeMaxRepeatAux]
  | succ k ih =>
    intro r m
    rw [List.replicate_succ]
    rw [show nativeMaxRepeatAux (c :: List.replicate (k + 1) c) c r m
        = nativeMaxRepeatAux (List.replicate (k + 1) c) c (r + 1) (max m (r + 1)) from by
      simp [nativeMaxRepeatAux]]
    rw [ih]
    omega

lemma nativeMaxRepeat_replicate (c : Char) (n : ℕ) (h : 1 ≤ n) :
    nativeMaxRepeat (List.replicate n c) = n - 1 := by
  obtain ⟨k, rfl⟩ : ∃ k, n = k + 1 := ⟨n - 1, by omega⟩
  rw [List.replicate_succ]
  show nativeMaxRepeatAux (List.replicate k c) c 0 0 = k + 1 - 1
  cases k with
  | zero => rfl
  | succ k =>
    rw [nativeMaxRepeatAux_replicate]
    omega

/-- Claim C5 as amended: the repeated-character garbage filter exists
only in the native router — whenever the joined, stripped engine text is
a run of `n ≥ 4` identical characters, the native `_transcribe` returns
no result.  (The whisper router has no such filter; see the
counterexample.) -/
theorem c5_garbage_filter_amended (p : NativeStreamingPolicy) (segTexts : List String)
    (al sr : ℕ) ( hs ve : Bool) (c : Char) (n : ℕ) (hn : 4 ≤ n)
    (htext : (pyStrip (String.join segTexts)).toList = List.replicate n c) :
    nativeTranscribeSegments p segTexts al sr hs ve = none := by
  have hne : segTexts.isEmpty = false := by
    cases segTexts with
    | nil =>
      exfalso
      have hl := congrArg List.length htext
      rw [List.length_replicate] at hl
      rw [show (pyStrip (String.join ([] : List String))).toList.length = 0 from rfl] at hl
      omega
    | cons a l => rfl
  unfold nativeTranscribeSegments
  rw [if_neg (by rw [hne]; exact Bool.false_ne_true)]
  simp only []
  rw [htext]
  rw [if_pos ?_]
  · constructor
    · rw [List.length_replicate]; omega
    · rw [nativeMaxRepeat_replicate c n (by omega)]; omega

/-- Witness for c5_garbage_filter_amended: the engine text "aaaa" (a run
of four identical characters) is discarded by the native transcribe
path at the route configuration. -/
theorem c5_garbage_filter_amended_witness :
    (4 ≤ 4 ∧ (pyStrip (String.join [("aaaa")])).toList = List.replicate 4 ('a')) ∧
    nativeTranscribeSegments ⟨6/10, 2, 1/2⟩ [("aaaa")] 9600 16000 false false = none :=
  ⟨⟨by norm_num, by decide⟩,
   c5_garbage_filter_amended ⟨6/10, 2, 1/2⟩ [("aaaa")] 9600 16000 false false 'a' 4
     (by norm_num) (by decide)⟩

/-- Session state used by the C5 counterexample: a tiny whisper
processor with one voiced buffered sample, about to run a pass. -/
def c5State : PCMAudioProcessor :=
  { PCMAudioProcessor.init 2 1 0 1 0 with pcm_buffer := [0, 64] }

set_option maxRecDepth 8000 in
/-- Counterexample to claim C5: the whisper router has no garbage
filter — when the engine returns the pathological text "aaaa" (a run of
four identical characters, flagged as garbage by the native router's
own criterion), the whisper `try_process` still emits it to the client. -/
theorem c5_garbage_counterexample :
    ((c5State.try_process 5 (some [⟨"aaaa", 0, 1⟩])).2.map
      (fun (e : EmitResult) => e.text)) = some ("aaaa") ∧
    3 < ("aaaa").toList.length ∧ 3 ≤ nativeMaxRepeat (("aaaa").toList) := by
  refine ⟨?_, by decide, by decide⟩
  with_unfolding_all decide

/-- Session state used by the C9 theorem's witness: a tiny whisper
processor with one voiced buffered sample. -/
def c9State : PCMAudioProcessor :=
  { PCMAudioProcessor.init 2 1 0 1 0 with pcm_buffer := [0, 64] }

/-- Claim C9: the commit policy never gates emission — whenever a
processing pass runs, its audio converts, and the transcription returns
a result dictionary, `try_process` returns a result with that text,
regardless of `should_commit`. -/
theorem c9_commit_gates_only_isfinal (s : PCMAudioProcessor) (now : ℚ)
    (segs : List SegmentOut) (arr : List ℚ) (rd : TransResult)
    (hstart : s.startsPass now = true)
    (hconv : convertPcmToNumpy s.processSliceOf = some arr)
    (hrd : whisperTranscribeSegments segs s.voiceEndedOf
        ((arr.length : ℚ) / (s.sample_rate : ℚ)) = some rd) :
    ∃ e : EmitResult, (s.try_process now (some segs)).2 = some e ∧ e.text = rd.text := by
  have h2 := (try_process_main s now (some segs) arr hstart hconv).2
  rw [show (some segs).bind (fun a => whisperTranscribeSegments a s.voiceEndedOf
      ((arr.length : ℚ) / (s.sample_rate : ℚ))) = some rd from hrd] at h2
  rcases he : (s.try_process now (some segs)).2 with _ | e
  · rw [he] at h2
    simp at h2
  · rw [he] at h2
    simp only [Option.map_some', Option.some.injEq, Prod.mk.injEq] at h2
    exact ⟨e, rfl, h2.1⟩

/-- Witness for c9_commit_gates_only_isfinal: a pass whose text "x" has
length 1, below `MIN_TEXT_LENGTH_FOR_COMMIT` (the policy answers
commit = false at these inputs), is still emitted. -/
theorem c9_commit_gates_only_isfinal_witness :
    (c9State.startsPass 5 = true ∧
     convertPcmToNumpy c9State.processSliceOf = some [(1 : ℚ) / 2] ∧
     whisperTranscribeSegments [⟨"x", 0, 1⟩] c9State.voiceEndedOf
       ((([(1 : ℚ) / 2] : List ℚ).length : ℚ) / (c9State.sample_rate : ℚ))
       = some ⟨"x", false, [(0, 1)]⟩ ∧
     (c9State.streaming_policy.should_commit ((1 : ℚ) / 2) false 1).1 = false) ∧
    (∃ e : EmitResult, (c9State.try_process 5 (some [⟨"x", 0, 1⟩])).2 = some e ∧
      e.text = (⟨"x", false, [(0, 1)]⟩ : TransResult).text) :=
  ⟨⟨by with_unfolding_all decide, by with_unfolding_all decide,
    by with_unfolding_all decide, by with_unfolding_all decide⟩,
   c9_commit_gates_only_isfinal c9State 5 [⟨"x", 0, 1⟩] [(1 : ℚ) / 2] ⟨"x", false, [(0, 1)]⟩
     (by with_unfolding_all decide) (by with_unfolding_all decide)
     (by with_unfolding_all decide)⟩

set_option maxRecDepth 8000 in
/-- Counterexample to claim C2: with the bound read at the code's
`max_buffer_duration = 3.0` of `try_process` (the only variable of that
name in the router), the invariant fails — after one frame of 15
samples at sample_rate 2 (chunk 1 s), a processing pass leaves 15
buffered samples, exceeding `int(2*3) + int(2*1) = 8`. -/
theorem c2_buffer_bound_counterexample :
    (pyInt (((2 : ℕ) : ℚ) * 3)).toNat + (pyInt (((2 : ℕ) : ℚ) * 1)).toNat <
      (runOps (PCMAudioProcessor.init 2 1 0 1 0)
        [SessionOp.addData (List.replicate 30 0), SessionOp.tryProc 5 none]).1.pcm_buffer.length / 2 := by
  with_unfolding_all decide

/-- Claim C2 as amended: the bound that actually holds is the deque cap
from `__init__` — for any session history, the buffered sample count
never exceeds `int(sample_rate * 10.0)` (and is trivially nonnegative). -/
theorem c2_buffer_bound_amended (sample_rate : ℕ) (chunk_duration overlap : ℚ)
    (min_samples : ℕ) (now0 : ℚ) (ops : List SessionOp) :
    (runOps (PCMAudioProcessor.init sample_rate chunk_duration overlap min_samples now0) ops).1.pcm_buffer.length / 2
      ≤ (pyInt ((sample_rate : ℚ) * 10)).toNat := by
  have h := runOps_buffer ops
    (PCMAudioProcessor.init sample_rate chunk_duration overlap min_samples now0)
    (by norm_num [PCMAudioProcessor.init])
  have h2 : (runOps (PCMAudioProcessor.init sample_rate chunk_duration overlap min_samples now0)
      ops).1.pcm_buffer_maxlen = (pyInt ((sample_rate : ℚ) * 10)).toNat * 2 := h.2
  have h1 := h.1
  rw [h2] at h1
  omega

/-- Claim C1: from a fresh processor, for any session history (frames,
processing passes, flush), every emitted result satisfies
endTime ≥ startTime, and startTime is non-decreasing across consecutive
emissions. -/
theorem c1_emitted_timestamps_monotone (sample_rate : ℕ) (chunk_duration overlap : ℚ)
    (min_samples : ℕ) (now0 : ℚ) (ops : List SessionOp)
    (hsr : 0 < sample_rate)
    (hov1 : (pyInt ((sample_rate : ℚ) * overlap)).toNat
      ≤ (pyInt ((sample_rate : ℚ) * chunk_duration)).toNat)
    (hov2 : (pyInt ((sample_rate : ℚ) * overlap)).toNat ≤ min_samples) :
    (∀ e ∈ (runOps (PCMAudioProcessor.init sample_rate chunk_duration overlap min_samples now0) ops).2,
      e.startTime ≤ e.endTime) ∧
    List.Chain' (fun a b => a.startTime ≤ b.startTime)
      (runOps (PCMAudioProcessor.init sample_rate chunk_duration overlap min_samples now0) ops).2 := by
  have h := runOps_c1 ops
    (PCMAudioProcessor.init sample_rate chunk_duration overlap min_samples now0)
    hov1 hov2 hsr (le_refl 0)
  exact ⟨fun e he => (h.2.1 e he).2, h.2.2⟩

/-- Witness for c1_emitted_timestamps_monotone at a small concrete
configuration and a one-pass session. -/
theorem c1_emitted_timestamps_monotone_witness :
    (0 < 2 ∧
     (pyInt (((2 : ℕ) : ℚ) * 0)).toNat ≤ (pyInt (((2 : ℕ) : ℚ) * 1)).toNat ∧
     (pyInt (((2 : ℕ) : ℚ) * 0)).toNat ≤ 1) ∧
    ((∀ e ∈ (runOps (PCMAudioProcessor.init 2 1 0 1 0)
        [SessionOp.addData [0, 64], SessionOp.tryProc 5 (some [⟨"hi", 0, 1⟩])]).2,
      e.startTime ≤ e.endTime) ∧
     List.Chain' (fun a b => a.startTime ≤ b.startTime)
       (runOps (PCMAudioProcessor.init 2 1 0 1 0)
         [SessionOp.addData [0, 64], SessionOp.tryProc 5 (some [⟨"hi", 0, 1⟩])]).2) :=
  ⟨⟨by norm_num, by with_unfolding_all decide, by with_unfolding_all decide⟩,
   c1_emitted_timestamps_monotone 2 1 0 1 0
     [SessionOp.addData [0, 64], SessionOp.tryProc 5 (some [⟨"hi", 0, 1⟩])]
     (by norm_num) (by with_unfolding_all decide) (by with_unfolding_all decide)⟩

/-- Session state used by the C3 counterexample: min_samples = 2,
buffer holding four zero bytes (two silent samples), pass due. -/
def c3State : PCMAudioProcessor :=
  { PCMAudioProcessor.init 2 1 0 2 0 with pcm_buffer := [0, 0, 0, 0] }

/-- Counterexample to claim C3: a processing pass starts (trigger gate
satisfied, not deferred), the claimed head advance is 4 bytes, yet on
the silence-skipped conversion path the buffer is returned unchanged —
the advance does not happen on that outcome. -/
theorem c3_silence_skip_counterexample :
    (c3State.startsPass 5 = true) ∧
    c3State.removeBytesOf = 4 ∧
    (c3State.try_process 5 none).1.pcm_buffer = c3State.pcm_buffer ∧
    c3State.pcm_buffer.drop c3State.removeBytesOf ≠ c3State.pcm_buffer := by
  refine ⟨?_, ?_, ?_, ?_⟩
  · with_unfolding_all decide
  · with_unfolding_all decide
  · with_unfolding_all decide
  · with_unfolding_all decide

/-- Claim C3 as amended: on every processing pass whose extracted audio
passes conversion (so on success, timeout, or empty/filtered recognition
result — but not on the silence-skipped conversion path), the buffer
head is advanced by `max 0 (process_samples - overlap_samples)` samples
(`removeBytesOf` bytes). -/
theorem c3_buffer_advance_amended (s : PCMAudioProcessor) (now : ℚ)
    (engine : Option (List SegmentOut)) (arr : List ℚ)
    (hstart : s.startsPass now = true)
    (hconv : convertPcmToNumpy s.processSliceOf = some arr) :
    (s.try_process now engine).1.pcm_buffer = s.pcm_buffer.drop s.removeBytesOf := by
  rw [(try_process_main s now engine arr hstart hconv).1]

/-- Session state used by the C3 amended theorem's witness. -/
def c3WState : PCMAudioProcessor :=
  { PCMAudioProcessor.init 2 1 0 1 0 with pcm_buffer := [0, 64] }

/-- Witness for c3_buffer_advance_amended: a concrete voiced pass whose
conversion succeeds; the buffer advances by `removeBytesOf`. -/
theorem c3_buffer_advance_amended_witness :
    (c3WState.startsPass 5 = true ∧
     convertPcmToNumpy c3WState.processSliceOf = some [(1 : ℚ) / 2]) ∧
    (c3WState.try_process 5 none).1.pcm_buffer
      = c3WState.pcm_buffer.drop c3WState.removeBytesOf :=
  ⟨⟨by with_unfolding_all decide, by with_unfolding_all decide⟩,
   c3_buffer_advance_amended c3WState 5 none [(1 : ℚ) / 2]
     (by with_unfolding_all decide) (by with_unfolding_all decide)⟩

/-- Claim C7: over any sequence of detect calls, VOICE_STARTED and
VOICE_ENDED strictly alternate starting with VOICE_STARTED (from a fresh
VAD), VOICE_STARTED is emitted exactly on a voiced chunk in the idle
state, and VOICE_ENDED exactly when an unvoiced chunk in the active
state brings the accumulated silence up to `min_silence_duration`. -/
theorem c7_vad_alternation :
    (∀ (threshold min_silence_duration : ℚ) (chunks : List (List ℕ)),
      altFrom true ((EventDrivenVAD.init threshold min_silence_duration).run chunks).2 = true) ∧
    (∀ (v : EventDrivenVAD) (c : List ℕ),
      ((v.detect c).2 = some VadEvent.voiceStarted ↔
        (v.detect_voice c = true ∧ v.voice_started = false))) ∧
    (∀ (v : EventDrivenVAD) (c : List ℕ),
      ((v.detect c).2 = some VadEvent.voiceEnded ↔
        (v.detect_voice c = false ∧ v.voice_started = true ∧
          v.min_silence_duration ≤
            v.silence_duration + ((c.length / 2 : ℕ) : ℚ) / (v.sample_rate : ℚ)))) := by
  refine ⟨fun th ms chunks => ?_, detect_started_iff, detect_ended_iff⟩
  have h := run_altFrom chunks (EventDrivenVAD.init th ms)
  simpa [EventDrivenVAD.init] using h

/-- Claim C8 (refuted): `has_silence()` can never answer true on the
whisper router's VAD (threshold 0.01, min_silence_duration 0.5).
`detect` resets `silence_duration` to 0 in the same call that emits
VOICE_ENDED, so even a voiced chunk followed by a full second of
silence (which does emit VOICE_STARTED then VOICE_ENDED) leaves
`has_silence` false afterwards, the next detect call returns no event,
and in fact after every chunk sequence `has_silence` is false. -/
theorem c8_has_silence_never_true :
    ((EventDrivenVAD.init (1/100) (1/2)).run
        [[0, 64], List.replicate 16000 0, [0, 0]]).2
      = [VadEvent.voiceStarted, VadEvent.voiceEnded] ∧
    ((((EventDrivenVAD.init (1/100) (1/2)).run
        [[0, 64], List.replicate 16000 0]).1).detect [0, 0]).2 = none ∧
    (((EventDrivenVAD.init (1/100) (1/2)).run
        [[0, 64], List.replicate 16000 0, [0, 0]]).1).has_silence = false ∧
    (∀ chunks : List (List ℕ),
      (((EventDrivenVAD.init (1/100) (1/2)).run chunks).1).has_silence = false) := by
  have htr2 : (EventDrivenVAD.init (1/100) (1/2)).run [[0, 64], List.replicate 16000 0]
      = ((⟨1/100, 1/2, false, 0, 16000⟩ : EventDrivenVAD),
         [VadEvent.voiceStarted, VadEvent.voiceEnded]) := by
    rw [c8_init_expand]
    unfold EventDrivenVAD.run
    rw [c8_step1]
    simp only []
    unfold EventDrivenVAD.run
    rw [c8_step2]
    rfl
  refine ⟨?_, ?_, ?_, ?_⟩
  · rw [c8_trace]
  · rw [htr2]
    rw [show ((((⟨1/100, 1/2, false, 0, 16000⟩ : EventDrivenVAD),
        [VadEvent.voiceStarted, VadEvent.voiceEnded]).1).detect [0, 0])
      = ((⟨1/100, 1/2, false, 0, 16000⟩ : EventDrivenVAD), none) from c8_step3]
  · rw [c8_trace]
    with_unfolding_all decide
  · intro chunks
    exact run_has_silence_false chunks _ (by norm_num [EventDrivenVAD.init])
      (by norm_num [EventDrivenVAD.init])

end FreeTodo
